import Mathlib

set_option autoImplicit false

namespace NestJsSpec

/-!
Verification development for the NestJS course repository.

Part 1 embeds the service-layer code that lives under `src/`
(`products.service.ts`, `users.service.ts`), with the external
persistence and bcrypt collaborators modelled as explicit data
(a repository is a list of rows, `bcrypt.hash` is a function
parameter, a freshly generated salt is a parameter).

Part 2 is the dependency-injection container.  The container itself is
framework code that does not appear under `src/`; only its declarations
(`@Module`, `forwardRef`, `@Inject`) do.  It is therefore modelled from
the specification (spec.md, section 4.1), faithful to its words:
module descriptors with imports/exports, a singleton instance cache,
owner search (own registration first, then imported modules that export
the token, ambiguity being a configuration error), an under-construction
stack that turns an eager re-entrant request into a
`CircularResolutionError`, and lazy references that yield forward
handles dereferenced only after construction completes.
-/

/-! ### Part 1a: products (src/src/products/products.service.ts) -/

/-- A row of the `products` table (src/src/products/product.entity.ts);
dates are modelled as natural numbers. -/
structure Product where
  id : Nat
  title : String
  description : String
  price : Int
  createdAt : Nat
  updatedAt : Nat
deriving DecidableEq, Repr

/-- src/src/products/dtos/update-product.dto.ts: all three fields are
`@IsOptional`; `none` means the field is absent from the request body. -/
structure UpdateProductDto where
  title : Option String
  description : Option String
  price : Option Int
deriving DecidableEq, Repr

/-- The exceptions thrown by the embedded service code. -/
inductive HttpError where
  | notFoundException (msg : String)
  | badRequestException (msg : String)
deriving DecidableEq, Repr

abbrev ProductRepo := List Product

/-- `findOne` (products.service.ts lines 36-42): look the product up by id
and throw `NotFoundException` when it is missing. -/
def findOne (repo : ProductRepo) (id : Nat) : Except HttpError Product :=
  match repo.find? (fun p => p.id == id) with
  | some p => .ok p
  | none => .error (.notFoundException "Product not found")

/-- `Object.assign(product, updateProductDto)` (products.service.ts line 53):
every field the DTO carries overwrites the product's field, absent fields
leave it untouched. -/
def assignDto (p : Product) (dto : UpdateProductDto) : Product :=
  { p with
    title := dto.title.getD p.title
    description := dto.description.getD p.description
    price := dto.price.getD p.price }

/-- `productRepository.save` for an entity carrying a primary key: the row
with the same id is replaced; a fresh entity is appended. -/
def save (repo : ProductRepo) (p : Product) : ProductRepo :=
  if repo.any (fun q => q.id == p.id) then
    repo.map (fun q => if q.id == p.id then p else q)
  else
    repo ++ [p]

/-- `productRepository.remove(product)`: delete the row with that id. -/
def removeEntity (repo : ProductRepo) (p : Product) : ProductRepo :=
  repo.filter (fun q => ¬ q.id == p.id)

/-- `update` (products.service.ts lines 47-56): re-use `findOne` for
validation, `Object.assign` the DTO onto the found product, save.
The returned repository is the store after the call (unchanged when
`findOne` throws). -/
def update (repo : ProductRepo) (id : Nat) (dto : UpdateProductDto) :
    Except HttpError Product × ProductRepo :=
  match findOne repo id with
  | .error e => (.error e, repo)
  | .ok p =>
      let product := assignDto p dto
      (.ok product, save repo product)

/-- `delete` (products.service.ts lines 61-65). -/
def deleteProduct (repo : ProductRepo) (id : Nat) :
    Except HttpError String × ProductRepo :=
  match findOne repo id with
  | .error e => (.error e, repo)
  | .ok p =>
      (.ok ("Product with ID " ++ toString id ++ " deleted successfully"),
       removeEntity repo p)

/-! ### Part 1b: users (src/src/users/users.service.ts) -/

/-- A row of the `users` table (src/src/users/user.entity.ts), restricted to
the fields `register` touches; `username` is optional in the DTO. -/
structure User where
  id : Nat
  username : Option String
  email : String
  password : String
deriving DecidableEq, Repr

/-- src RegisterDto: email, password, optional username. -/
structure RegisterDto where
  email : String
  password : String
  username : Option String
deriving DecidableEq, Repr

abbrev UserRepo := List User

/-- `register` (users.service.ts lines 18-40).  The external bcryptjs
collaborator is passed in explicitly: `bhash` stands for `bcrypt.hash`
and `salt` for the salt freshly produced by `bcrypt.genSalt(10)`.
The saved user gets a generated primary key; the spread
`\x7b...registerDto, password: hashedPassword\x7d` is the record built below. -/
def register (bhash : String → String → String) (salt : String)
    (repo : UserRepo) (dto : RegisterDto) : Except HttpError User × UserRepo :=
  match repo.find? (fun u => u.email == dto.email) with
  | some _ => (.error (.badRequestException "User already exists"), repo)
  | none =>
      let hashedPassword := bhash dto.password salt
      let newUser : User :=
        { id := repo.length + 1
          username := dto.username
          email := dto.email
          password := hashedPassword }
      (.ok newUser, repo ++ [newUser])

/-! ### Part 2: the dependency-injection container.

Modelled from the spec: the container is framework code not present under
`src/`; sections 3 and 4.1 of spec.md describe its data model (module
descriptors, provider registrations, singleton instance cache, lazy
references) and its resolution algorithm, which the following definitions
transcribe. -/

abbrev Token := Nat
abbrev ModuleId := Nat

/-- Modelled from the spec: a reference that is either direct or a Lazy
Reference (`forwardRef` in the source declarations), deferring evaluation
until first use. -/
inductive Ref (α : Type) where
  | direct (a : α)
  | lazy (a : α)
deriving DecidableEq, Repr

/-- The referenced value, produced when the reference is evaluated
(for a Lazy Reference: on demand). -/
def Ref.get {α : Type} : Ref α → α
  | .direct a => a
  | .lazy a => a

/-- Modelled from the spec: a Provider Registration associates a token with
a construction strategy; we keep its declared dependency tokens, each
possibly wrapped in a Lazy Reference. -/
structure Registration where
  token : Token
  deps : List (Ref Token)
deriving DecidableEq, Repr

/-- Modelled from the spec: a Module Descriptor with providers, imports
(possibly Lazy References) and exported tokens. -/
structure ModuleDesc where
  id : ModuleId
  imports : List (Ref ModuleId)
  providers : List Registration
  exports : List Token
deriving DecidableEq, Repr

abbrev Graph := List ModuleDesc

/-- Modelled from the spec: the error taxonomy of section 7, plus an
out-of-fuel marker used to make the recursive resolver total. -/
inductive DIError where
  | configurationError
  | unresolvedDependencyError (token : Token) (requester : ModuleId)
  | circularResolutionError
  | outOfFuel
deriving DecidableEq, Repr

/-- Look a module up in the graph by its identifier. -/
def findModule : Graph → ModuleId → Option ModuleDesc
  | [], _ => none
  | d :: g, m => if d.id = m then some d else findModule g m

/-- Find a registration for the token in a provider list. -/
def findProvider : List Registration → Token → Option Registration
  | [], _ => none
  | r :: rs, t => if r.token = t then some r else findProvider rs t

/-- Does the module own a registration for the token? -/
def ownsToken (d : ModuleDesc) (t : Token) : Bool :=
  (findProvider d.providers t).isSome

/-- Membership of a token in an export list. -/
def listedIn : List Token → Token → Bool
  | [], _ => false
  | x :: xs, t => if x = t then true else listedIn xs t

/-- Modelled from the spec: a module makes the token visible to importers
when it has a registration for it that is present in its exports list. -/
def moduleExports (d : ModuleDesc) (t : Token) : Bool :=
  ownsToken d t && listedIn d.exports t

/-- Modelled from the spec: walk the import list (evaluating Lazy
References on demand), keeping the modules that export the token. -/
def exportersOf (g : Graph) : List (Ref ModuleId) → Token → List ModuleId
  | [], _ => []
  | r :: rs, t =>
    match findModule g (Ref.get r) with
    | none => exportersOf g rs t
    | some dm =>
        if moduleExports dm t then dm.id :: exportersOf g rs t
        else exportersOf g rs t

/-- Modelled from the spec (resolution order of `resolve`): the module that
owns the registration used for the token as seen from module `m` — `m`
itself if it has one, else the unique imported module exporting the token;
no match is an `UnresolvedDependencyError` naming token and requester, an
ambiguous export is a `ConfigurationError`. -/
def ownerOf (g : Graph) (m : ModuleId) (t : Token) : Except DIError ModuleId :=
  match findModule g m with
  | none => .error .configurationError
  | some d =>
    if ownsToken d t then .ok m
    else
      match exportersOf g d.imports t with
      | [] => .error (.unresolvedDependencyError t m)
      | [o] => .ok o
      | _ :: _ :: _ => .error .configurationError

/-- The value passed to a factory for one declared dependency: a resolved
instance (identified by its creation index) or, for a dependency declared
via a Lazy Reference, a forward handle recording the scope and token to be
resolved on first member access. -/
inductive DepVal where
  | inst (i : Nat)
  | handle (m : ModuleId) (t : Token)
deriving DecidableEq, Repr

/-- Modelled from the spec: the container state — the Singleton Instance
Cache mapping (module, token) to the constructed instance (instances are
identified by creation index, so identity is index equality), the
dependency values each instance was constructed with, and the log of
factory invocations. -/
structure DIState where
  cache : List ((ModuleId × Token) × Nat)
  instDeps : List (Nat × List DepVal)
  factoryRuns : List (ModuleId × Token)
deriving DecidableEq, Repr

def initState : DIState := { cache := [], instDeps := [], factoryRuns := [] }

/-- Association-list lookup used for the cache and the instance table. -/
def lookupAssoc {α β : Type} [DecidableEq α] : List (α × β) → α → Option β
  | [], _ => none
  | e :: es, a => if e.1 = a then some e.2 else lookupAssoc es a

abbrev Resolver :=
  List (ModuleId × Token) → ModuleId → Token → DIState →
    Except DIError (Nat × DIState)

/-- Modelled from the spec: resolve the declared dependencies of a
registration in order.  A direct dependency is resolved synchronously
inline; a dependency wrapped in a Lazy Reference produces a forward handle
instead (construction of its target is deferred). -/
def resolveDeps (res : Resolver) (stack : List (ModuleId × Token))
    (m : ModuleId) : List (Ref Token) → DIState →
    Except DIError (List DepVal × DIState)
  | [], s => .ok ([], s)
  | .lazy t :: ds, s =>
    match resolveDeps res stack m ds s with
    | .error e => .error e
    | .ok (vs, s1) => .ok (.handle m t :: vs, s1)
  | .direct t :: ds, s =>
    match res stack m t s with
    | .error e => .error e
    | .ok (i, s1) =>
      match resolveDeps res stack m ds s1 with
      | .error e => .error e
      | .ok (vs, s2) => .ok (.inst i :: vs, s2)

/-- Modelled from the spec (`instantiate`): push the pair onto the
under-construction stack, resolve the declared dependencies, then invoke
the factory once — a fresh instance index is allocated, the cache entry
written, the invocation logged. -/
def construct (g : Graph) (res : Resolver) (stack : List (ModuleId × Token))
    (o : ModuleId) (t : Token) (s : DIState) :
    Except DIError (Nat × DIState) :=
  match findModule g o with
  | none => .error .configurationError
  | some od =>
    match findProvider od.providers t with
    | none => .error (.unresolvedDependencyError t o)
    | some reg =>
      match resolveDeps res ((o, t) :: stack) o reg.deps s with
      | .error e => .error e
      | .ok (args, s1) =>
        let i := s1.factoryRuns.length
        .ok (i,
          { cache := ((o, t), i) :: s1.cache
            instDeps := (i, args) :: s1.instDeps
            factoryRuns := (o, t) :: s1.factoryRuns })

/-- Modelled from the spec (`resolve`): determine the owning module, serve
the cached singleton when the entry exists, fail with
`CircularResolutionError` on a re-entrant request for a pair that is
already under construction, otherwise construct.  The fuel argument makes
the function total; every claim below is insensitive to it. -/
def resolve (g : Graph) : Nat → Resolver
  | 0 => fun _ _ _ _ => .error .outOfFuel
  | fuel + 1 => fun stack m t s =>
    match ownerOf g m t with
    | .error e => .error e
    | .ok o =>
      match lookupAssoc s.cache (o, t) with
      | some i => .ok (i, s)
      | none =>
        if (o, t) ∈ stack then .error .circularResolutionError
        else construct g (resolve g fuel) stack o t s

/-- Modelled from the spec: dereferencing a forward handle on first member
access triggers resolution of its target in the recorded scope, with no
construction in progress any more (the enclosing constructors have
returned, so the stack is empty). -/
def derefHandle (g : Graph) (fuel : Nat) (v : DepVal) (s : DIState) :
    Except DIError (Nat × DIState) :=
  match v with
  | .inst i => .ok (i, s)
  | .handle m t => resolve g fuel [] m t s

/-! ### Invariants of the container state -/

/-- No instance for the pair is cached yet. -/
def cacheFresh (s : DIState) (p : ModuleId × Token) : Prop :=
  ∀ j, (p, j) ∉ s.cache

/-- Every pair on the under-construction stack is still uncached (its
cache entry is written only when its own construction completes). -/
def StackFresh (stack : List (ModuleId × Token)) (s : DIState) : Prop :=
  ∀ p ∈ stack, cacheFresh s p

/-- A well-formed container state: the factory-invocation log has no
duplicates and every logged pair has a cache entry. -/
structure Good (s : DIState) : Prop where
  nodup : s.factoryRuns.Nodup
  runsCached : ∀ p ∈ s.factoryRuns, ∃ j, (p, j) ∈ s.cache

/-- What one resolution step preserves: the cache only grows, pairs on the
stack stay uncached, and well-formedness is kept. -/
def Preserves (stack : List (ModuleId × Token)) (s s1 : DIState) : Prop :=
  (∀ e ∈ s.cache, e ∈ s1.cache) ∧
  (∀ p ∈ stack, cacheFresh s p → cacheFresh s1 p) ∧
  (Good s → StackFresh stack s → Good s1)

/-! ### The module graphs of the repository

Tokens and module identifiers for the concrete modules declared under
`src/` (UsersModule, ReviewsModule and the users/reviews services of the
forwardRef lesson; the three-module chain Users ← Reviews ← App). -/

def usersT : Token := 0
def reviewsT : Token := 1
def hiddenT : Token := 2
def usersMId : ModuleId := 0
def reviewsMId : ModuleId := 1
def appMId : ModuleId := 2

/-- UsersModule of the circular-dependency lesson
(src/src/users/users.module.ts): imports ReviewsModule through
`forwardRef`, provides UsersService whose dependency on ReviewsService is
declared with `@Inject(forwardRef(...))`, exports UsersService. -/
def usersModuleL : ModuleDesc :=
  { id := usersMId
    imports := [.lazy reviewsMId]
    providers := [{ token := usersT, deps := [.lazy reviewsT] }]
    exports := [usersT] }

/-- ReviewsModule of the circular-dependency lesson
(src/src/reviews/reviews.module.ts): the mirror image of `usersModuleL`. -/
def reviewsModuleL : ModuleDesc :=
  { id := reviewsMId
    imports := [.lazy usersMId]
    providers := [{ token := reviewsT, deps := [.lazy usersT] }]
    exports := [reviewsT] }

def lazyGraph : Graph := [usersModuleL, reviewsModuleL]

/-- The same two mutually dependent modules with direct (non-lazy)
references on both sides. -/
def eagerGraph : Graph :=
  [{ id := usersMId, imports := [.direct reviewsMId]
     providers := [{ token := usersT, deps := [.direct reviewsT] }]
     exports := [usersT] },
   { id := reviewsMId, imports := [.direct usersMId]
     providers := [{ token := reviewsT, deps := [.direct usersT] }]
     exports := [reviewsT] }]

/-- Container state after resolving UsersService from `lazyGraph`:
one instance (index 0) constructed with a forward handle for
ReviewsService. -/
def lazyS1 : DIState :=
  { cache := [((usersMId, usersT), 0)]
    instDeps := [(0, [.handle usersMId reviewsT])]
    factoryRuns := [(usersMId, usersT)] }

/-- Container state after additionally dereferencing the forward handle:
ReviewsService (index 1) constructed with a forward handle for
UsersService. -/
def lazyS2 : DIState :=
  { cache := [((reviewsMId, reviewsT), 1), ((usersMId, usersT), 0)]
    instDeps := [(1, [.handle reviewsMId usersT]),
                 (0, [.handle usersMId reviewsT])]
    factoryRuns := [(reviewsMId, reviewsT), (usersMId, usersT)] }

/-- UsersModule with an extra provider (`hiddenT`) that is not listed in
its exports; only UsersService is exported (users.module.ts exports
`[UsersService]`). -/
def usersModC : ModuleDesc :=
  { id := usersMId
    imports := []
    providers := [{ token := usersT, deps := [] },
                  { token := hiddenT, deps := [] }]
    exports := [usersT] }

/-- ReviewsModule as importer: imports Users, provides and exports only
ReviewsService (no re-export of UsersService). -/
def reviewsModC : ModuleDesc :=
  { id := reviewsMId
    imports := [.direct usersMId]
    providers := [{ token := reviewsT, deps := [] }]
    exports := [reviewsT] }

/-- AppModule as in src/src/app.module.ts restricted to the Reviews
import: imports ReviewsModule, provides nothing. -/
def appModC : ModuleDesc :=
  { id := appMId
    imports := [.direct reviewsMId]
    providers := []
    exports := [] }

def chainGraph : Graph := [usersModC, reviewsModC, appModC]

/-- First of two modules exporting the same token. -/
def ambA : ModuleDesc :=
  { id := 10, imports := [], providers := [{ token := 5, deps := [] }]
    exports := [5] }

/-- Second module exporting the same token. -/
def ambB : ModuleDesc :=
  { id := 11, imports := [], providers := [{ token := 5, deps := [] }]
    exports := [5] }

/-- A third module importing both exporters of token 5. -/
def ambC : ModuleDesc :=
  { id := 12, imports := [.direct 10, .direct 11], providers := []
    exports := [] }

/-- Two modules that both export the same token, and a third module
importing both of them. -/
def ambGraph : Graph := [ambA, ambB, ambC]

/-! ### Concrete sample data for the service-layer claims -/

def sampleProductA : Product :=
  { id := 1, title := "Product 1", description := "first", price := 100
    createdAt := 11, updatedAt := 12 }

def sampleProductB : Product :=
  { id := 2, title := "Product 2", description := "second", price := 200
    createdAt := 21, updatedAt := 22 }

def sampleRepo : ProductRepo := [sampleProductA, sampleProductB]

/-- A DTO carrying only a new title and a new price. -/
def sampleDto : UpdateProductDto :=
  { title := some "Renamed", description := none, price := some 150 }

def sampleUser : User :=
  { id := 1, username := some "ahmed", email := "a@mail.com"
    password := "hashed-old" }

def sampleUserRepo : UserRepo := [sampleUser]

def sampleRegisterDto : RegisterDto :=
  { email := "b@mail.com", password := "secret", username := some "b" }

/-- A stand-in for `bcrypt.hash` used by the witness. -/
def sampleHash (password salt : String) : String :=
  "bcrypt-" ++ salt ++ "-" ++ password

/-! ### Helper lemmas -/

theorem lookupAssoc_mem {α β : Type} [DecidableEq α] {l : List (α × β)}
    {a : α} {b : β} (h : lookupAssoc l a = some b) : (a, b) ∈ l := by
  induction l with
  | nil => simp [lookupAssoc] at h
  | cons e es ih =>
    by_cases he : e.1 = a
    · simp only [lookupAssoc, if_pos he] at h
      cases h
      have he2 : (a, e.2) = e := by rw [← he]
      rw [he2]
      exact List.mem_cons_self _ _
    · simp only [lookupAssoc, if_neg he] at h
      exact List.mem_cons_of_mem e (ih h)

theorem lookupAssoc_none {α β : Type} [DecidableEq α] {l : List (α × β)}
    {a : α} (h : lookupAssoc l a = none) : ∀ b, (a, b) ∉ l := by
  induction l with
  | nil => simp
  | cons e es ih =>
    by_cases he : e.1 = a
    · simp [lookupAssoc, if_pos he] at h
    · simp only [lookupAssoc, if_neg he] at h
      intro b hb
      rcases List.mem_cons.mp hb with hb | hb
      · exact he (by rw [← hb])
      · exact ih h b hb

theorem lookupAssoc_cons_self {α β : Type} [DecidableEq α]
    (l : List (α × β)) (a : α) (b : β) :
    lookupAssoc ((a, b) :: l) a = some b := by
  simp [lookupAssoc]

theorem findModule_id {g : Graph} {m : ModuleId} {d : ModuleDesc}
    (h : findModule g m = some d) : d.id = m := by
  induction g with
  | nil => simp [findModule] at h
  | cons e g ih =>
    by_cases he : e.id = m
    · simp only [findModule, if_pos he] at h
      cases h
      exact he
    · simp only [findModule, if_neg he] at h
      exact ih h

theorem listedIn_false {l : List Token} {t : Token}
    (h : listedIn l t = false) : t ∉ l := by
  induction l with
  | nil => simp
  | cons x xs ih =>
    by_cases hx : x = t
    · simp [listedIn, if_pos hx] at h
    · simp only [listedIn, if_neg hx] at h
      intro hm
      rcases List.mem_cons.mp hm with hm | hm
      · exact hx hm.symm
      · exact ih h hm

theorem exportersOf_eq_nil {g : Graph} {rs : List (Ref ModuleId)} {t : Token}
    (h : ∀ r ∈ rs, ∀ dm, findModule g (Ref.get r) = some dm →
        moduleExports dm t = false) :
    exportersOf g rs t = [] := by
  induction rs with
  | nil => rfl
  | cons r rs ih =>
    have ihr := ih (fun r' hr' => h r' (List.mem_cons_of_mem r hr'))
    cases hfm : findModule g (Ref.get r) with
    | none => simpa [exportersOf, hfm] using ihr
    | some dm =>
      have hex := h r (List.mem_cons_self r rs) dm hfm
      simpa [exportersOf, hfm, hex] using ihr

theorem Preserves.refl (stack : List (ModuleId × Token)) (s : DIState) :
    Preserves stack s s :=
  ⟨fun _ he => he, fun _ _ hf => hf, fun hg _ => hg⟩

theorem Preserves.trans {stack : List (ModuleId × Token)} {s s1 s2 : DIState}
    (h1 : Preserves stack s s1) (h2 : Preserves stack s1 s2) :
    Preserves stack s s2 := by
  refine ⟨fun e he => h2.1 e (h1.1 e he),
          fun p hp hf => h2.2.1 p hp (h1.2.1 p hp hf),
          fun hg hf => ?_⟩
  exact h2.2.2 (h1.2.2 hg hf) (fun p hp => h1.2.1 p hp (hf p hp))

theorem resolveDeps_preserves (res : Resolver)
    (hres : ∀ stack m t s i s1, res stack m t s = .ok (i, s1) →
        Preserves stack s s1) :
    ∀ (ds : List (Ref Token)) (stack : List (ModuleId × Token))
      (m : ModuleId) (s : DIState) (vs : List DepVal) (s1 : DIState),
      resolveDeps res stack m ds s = .ok (vs, s1) → Preserves stack s s1 := by
  intro ds
  induction ds with
  | nil =>
    intro stack m s vs s1 h
    simp only [resolveDeps] at h
    cases h
    exact Preserves.refl stack s
  | cons d ds ih =>
    intro stack m s vs s1 h
    cases d with
    | lazy t =>
      simp only [resolveDeps] at h
      cases hrec : resolveDeps res stack m ds s with
      | error e => rw [hrec] at h; cases h
      | ok out =>
        rw [hrec] at h
        obtain ⟨vs', s'⟩ := out
        cases h
        exact ih stack m s vs' s1 hrec
    | direct t =>
      simp only [resolveDeps] at h
      cases hr : res stack m t s with
      | error e => simp only [hr] at h; cases h
      | ok out =>
        obtain ⟨i, smid⟩ := out
        simp only [hr] at h
        cases hrec : resolveDeps res stack m ds smid with
        | error e => simp only [hrec] at h; cases h
        | ok out2 =>
          obtain ⟨vs', s2⟩ := out2
          simp only [hrec] at h
          cases h
          exact Preserves.trans (hres _ _ _ _ _ _ hr) (ih _ _ _ _ _ hrec)

/-- One successful resolution step preserves the container invariants:
the cache grows monotonically, under-construction pairs stay uncached,
and well-formedness of the factory log is kept. -/
theorem resolve_preserves (g : Graph) :
    ∀ (fuel : Nat) (stack : List (ModuleId × Token)) (m : ModuleId) (t : Token)
      (s : DIState) (i : Nat) (s1 : DIState),
      resolve g fuel stack m t s = .ok (i, s1) → Preserves stack s s1 := by
  intro fuel
  induction fuel with
  | zero => intro stack m t s i s1 h; simp [resolve] at h
  | succ fuel ih =>
    intro stack m t s i s1 h
    simp only [resolve] at h
    cases ho : ownerOf g m t with
    | error e => simp only [ho] at h; cases h
    | ok o =>
      simp only [ho] at h
      cases hc : lookupAssoc s.cache (o, t) with
      | some j =>
        simp only [hc] at h
        cases h
        exact Preserves.refl _ _
      | none =>
        simp only [hc] at h
        by_cases hmem : (o, t) ∈ stack
        · simp only [if_pos hmem] at h; cases h
        · simp only [if_neg hmem] at h
          simp only [construct] at h
          cases hfm : findModule g o with
          | none => simp only [hfm] at h; cases h
          | some od =>
            simp only [hfm] at h
            cases hfp : findProvider od.providers t with
            | none => simp only [hfp] at h; cases h
            | some reg =>
              simp only [hfp] at h
              cases hds : resolveDeps (resolve g fuel) ((o, t) :: stack) o
                  reg.deps s with
              | error e => simp only [hds] at h; cases h
              | ok out =>
                obtain ⟨args, smid⟩ := out
                simp only [hds] at h
                cases h
                have hP := resolveDeps_preserves (resolve g fuel) ih
                  reg.deps ((o, t) :: stack) o s args smid hds
                have hotfresh : cacheFresh s (o, t) :=
                  fun j hj => lookupAssoc_none hc j hj
                refine ⟨?_, ?_, ?_⟩
                · intro e he
                  exact List.mem_cons_of_mem _ (hP.1 e he)
                · intro p hp hf
                  have hfmid : cacheFresh smid p :=
                    hP.2.1 p (List.mem_cons_of_mem _ hp) hf
                  intro j hj
                  rcases List.mem_cons.mp hj with hj | hj
                  · injection hj with h1 h2
                    exact hmem (h1 ▸ hp)
                  · exact hfmid j hj
                · intro hg hf
                  have hf2 : StackFresh ((o, t) :: stack) s := by
                    intro p hp
                    rcases List.mem_cons.mp hp with hp | hp
                    · exact hp ▸ hotfresh
                    · exact hf p hp
                  have hgmid : Good smid := hP.2.2 hg hf2
                  have hotmid : cacheFresh smid (o, t) :=
                    hP.2.1 (o, t) (List.mem_cons_self _ _) hotfresh
                  constructor
                  · refine List.nodup_cons.mpr ⟨?_, hgmid.nodup⟩
                    intro hmemruns
                    obtain ⟨j, hj⟩ := hgmid.runsCached _ hmemruns
                    exact hotmid j hj
                  · intro p hp
                    rcases List.mem_cons.mp hp with hp | hp
                    · exact ⟨smid.factoryRuns.length,
                        by rw [hp]; exact List.mem_cons_self _ _⟩
                    · obtain ⟨j, hj⟩ := hgmid.runsCached p hp
                      exact ⟨j, List.mem_cons_of_mem _ hj⟩

/-- After a successful resolution the owning pair is in the cache, mapped
to the returned instance. -/
theorem resolve_cached (g : Graph) (fuel : Nat)
    (stack : List (ModuleId × Token)) (m : ModuleId) (t : Token) (s : DIState)
    (i : Nat) (s1 : DIState) (h : resolve g fuel stack m t s = .ok (i, s1)) :
    ∃ o, ownerOf g m t = .ok o ∧ lookupAssoc s1.cache (o, t) = some i := by
  cases fuel with
  | zero => simp [resolve] at h
  | succ fuel =>
    simp only [resolve] at h
    cases ho : ownerOf g m t with
    | error e => simp only [ho] at h; cases h
    | ok o =>
      simp only [ho] at h
      refine ⟨o, rfl, ?_⟩
      cases hc : lookupAssoc s.cache (o, t) with
      | some j =>
        simp only [hc] at h
        cases h
        exact hc
      | none =>
        simp only [hc] at h
        by_cases hmem : (o, t) ∈ stack
        · simp only [if_pos hmem] at h; cases h
        · simp only [if_neg hmem] at h
          simp only [construct] at h
          cases hfm : findModule g o with
          | none => simp only [hfm] at h; cases h
          | some od =>
            simp only [hfm] at h
            cases hfp : findProvider od.providers t with
            | none => simp only [hfp] at h; cases h
            | some reg =>
              simp only [hfp] at h
              cases hds : resolveDeps (resolve g fuel) ((o, t) :: stack) o
                  reg.deps s with
              | error e => simp only [hds] at h; cases h
              | ok out =>
                obtain ⟨args, smid⟩ := out
                simp only [hds] at h
                cases h
                exact lookupAssoc_cons_self _ _ _

/-- Resolving a pair again after a success returns the identical instance
and leaves the container state untouched, for any fuel and any stack. -/
theorem resolve_idem (g : Graph) (fuel : Nat)
    (stack : List (ModuleId × Token)) (m : ModuleId) (t : Token) (s : DIState)
    (i : Nat) (s1 : DIState) (h : resolve g fuel stack m t s = .ok (i, s1)) :
    ∀ (fuel2 : Nat) (stack2 : List (ModuleId × Token)),
      resolve g (fuel2 + 1) stack2 m t s1 = .ok (i, s1) := by
  obtain ⟨o, ho, hl⟩ := resolve_cached g fuel stack m t s i s1 h
  intro fuel2 stack2
  simp only [resolve, ho, hl]

/-- A token whose owning registration has no dependencies always resolves
successfully (cache hit or fresh construction). -/
theorem resolve_nodeps (g : Graph) (fuel : Nat) (m : ModuleId) (t : Token)
    (s : DIState) (o : ModuleId) (od : ModuleDesc) (reg : Registration)
    (ho : ownerOf g m t = .ok o) (hod : findModule g o = some od)
    (hreg : findProvider od.providers t = some reg) (hdeps : reg.deps = []) :
    ∃ i s1, resolve g (fuel + 1) [] m t s = .ok (i, s1) := by
  cases hc : lookupAssoc s.cache (o, t) with
  | some i => exact ⟨i, s, by simp [resolve, ho, hc]⟩
  | none =>
    refine ⟨s.factoryRuns.length,
      { cache := ((o, t), s.factoryRuns.length) :: s.cache
        instDeps := (s.factoryRuns.length, []) :: s.instDeps
        factoryRuns := (o, t) :: s.factoryRuns }, ?_⟩
    simp [resolve, ho, hc, construct, hod, hreg, hdeps, resolveDeps]

/-! ### The claims -/

/-- C1: for every (module, token) pair the container constructs at most
one instance: after any successful resolution, every further resolution
of that pair (any fuel, any stack) returns the identical instance with
the container state — cache and factory log included — literally
unchanged; the cache only ever grows (no eviction or replacement); and in
a well-formed state every factory has run at most once per pair. -/
theorem claim_C1_singleton (g : Graph) (fuel : Nat)
    (stack : List (ModuleId × Token)) (m : ModuleId) (t : Token) (s : DIState)
    (i : Nat) (s1 : DIState) (h : resolve g fuel stack m t s = .ok (i, s1))
    (hg : Good s) (hf : StackFresh stack s) :
    (∀ (fuel2 : Nat) (stack2 : List (ModuleId × Token)),
       resolve g (fuel2 + 1) stack2 m t s1 = .ok (i, s1)) ∧
    (∀ e ∈ s.cache, e ∈ s1.cache) ∧
    Good s1 ∧
    (∀ (p : ModuleId × Token) (l1 l2 : List (ModuleId × Token)),
       s1.factoryRuns = l1 ++ p :: l2 → p ∉ l1 ∧ p ∉ l2) := by
  have hp := resolve_preserves g fuel stack m t s i s1 h
  have hg1 : Good s1 := hp.2.2 hg hf
  refine ⟨resolve_idem g fuel stack m t s i s1 h, hp.1, hg1, ?_⟩
  intro p l1 l2 hsplit
  have hn := hg1.nodup
  rw [hsplit, List.nodup_middle, List.nodup_cons] at hn
  exact ⟨fun hm => hn.1 (List.mem_append.mpr (Or.inl hm)),
         fun hm => hn.1 (List.mem_append.mpr (Or.inr hm))⟩

/-- Witness for C1 at the repository's lazy Users/Reviews graph. -/
theorem claim_C1_witness :
    resolve lazyGraph 5 [] usersMId usersT initState = .ok (0, lazyS1) ∧
    Good initState ∧ StackFresh [] initState ∧
    ((∀ (fuel2 : Nat) (stack2 : List (ModuleId × Token)),
        resolve lazyGraph (fuel2 + 1) stack2 usersMId usersT lazyS1 =
          .ok (0, lazyS1)) ∧
     (∀ e ∈ initState.cache, e ∈ lazyS1.cache) ∧
     Good lazyS1 ∧
     (∀ (p : ModuleId × Token) (l1 l2 : List (ModuleId × Token)),
        lazyS1.factoryRuns = l1 ++ p :: l2 → p ∉ l1 ∧ p ∉ l2)) := by
  have hgood : Good initState := ⟨by simp [initState], by simp [initState]⟩
  have hfresh : StackFresh [] initState := by intro p hp; cases hp
  exact ⟨rfl, hgood, hfresh,
    claim_C1_singleton lazyGraph 5 [] usersMId usersT initState 0 lazyS1 rfl
      hgood hfresh⟩

/-- C2: in the mutually dependent Users/Reviews graph declared via Lazy
References, resolving UsersService succeeds and records a forward handle
for ReviewsService; dereferencing it constructs ReviewsService, which in
turn carries a forward handle for UsersService; dereferencing that handle
resolves to the very UsersService instance already in the cache (identity
round-trip, instance index 0, state unchanged), and resolving the token
directly yields the same cached instance. -/
theorem claim_C2_lazy_cycle :
    resolve lazyGraph 10 [] usersMId usersT initState = .ok (0, lazyS1) ∧
    lookupAssoc lazyS1.instDeps 0 = some [.handle usersMId reviewsT] ∧
    derefHandle lazyGraph 10 (.handle usersMId reviewsT) lazyS1 =
      .ok (1, lazyS2) ∧
    lookupAssoc lazyS2.instDeps 1 = some [.handle reviewsMId usersT] ∧
    derefHandle lazyGraph 10 (.handle reviewsMId usersT) lazyS2 =
      .ok (0, lazyS2) ∧
    resolve lazyGraph 10 [] usersMId usersT lazyS2 = .ok (0, lazyS2) ∧
    lookupAssoc lazyS2.cache (usersMId, usersT) = some 0 ∧
    lookupAssoc lazyS2.cache (reviewsMId, reviewsT) = some 1 :=
  ⟨rfl, rfl, rfl, rfl, rfl, rfl, rfl, rfl⟩

/-- C3: with direct (non-lazy) references on both sides of the same
mutual dependency, resolution terminates with `CircularResolutionError`
for every fuel bound (so it neither recurses indefinitely nor succeeds);
and in general, a re-entrant request for an uncached pair that is already
under construction fails with `CircularResolutionError`. -/
theorem claim_C3_eager_cycle :
    (∀ fuel : Nat,
        resolve eagerGraph (fuel + 3) [] usersMId usersT initState =
          .error .circularResolutionError) ∧
    (∀ (g : Graph) (fuel : Nat) (stack : List (ModuleId × Token))
        (m : ModuleId) (t : Token) (s : DIState) (o : ModuleId),
        ownerOf g m t = .ok o → lookupAssoc s.cache (o, t) = none →
        (o, t) ∈ stack →
        resolve g (fuel + 1) stack m t s = .error .circularResolutionError) := by
  refine ⟨fun fuel => rfl, ?_⟩
  intro g fuel stack m t s o ho hc hm
  simp [resolve, ho, hc, hm]

/-- Witness for C3: the eager Users/Reviews graph and a concrete
re-entrant request. -/
theorem claim_C3_witness :
    resolve eagerGraph 4 [] usersMId usersT initState =
      .error .circularResolutionError ∧
    resolve eagerGraph 1 [(usersMId, usersT)] usersMId usersT initState =
      .error .circularResolutionError := by
  refine ⟨claim_C3_eager_cycle.1 1,
    claim_C3_eager_cycle.2 eagerGraph 0 [(usersMId, usersT)] usersMId usersT
      initState usersMId rfl rfl ?_⟩
  exact List.mem_cons_self _ _

/-- C4: a provider registered in module A but not listed in A's exports is
not resolvable from a module B that imports A — resolution fails with
`UnresolvedDependencyError` naming the token and B — although A itself
owns it (and, for a dependency-free registration, resolves it
successfully); a token that A does export, with A as its unique exporter
among B's imports, resolves from B to A's registration. -/
theorem claim_C4_export_visibility (g : Graph) (fuel : Nat)
    (stack : List (ModuleId × Token)) (s : DIState) (a b : ModuleDesc)
    (t : Token)
    (hga : findModule g a.id = some a)
    (hgb : findModule g b.id = some b)
    (hBimpA : Ref.direct a.id ∈ b.imports ∨ Ref.lazy a.id ∈ b.imports)
    (hreg : ownsToken a t = true)
    (hnexp : listedIn a.exports t = false)
    (hbown : ownsToken b t = false)
    (himp : ∀ r ∈ b.imports, ∀ dm, findModule g (Ref.get r) = some dm →
        dm.id ≠ a.id → moduleExports dm t = false) :
    resolve g (fuel + 1) stack b.id t s =
      .error (.unresolvedDependencyError t b.id) ∧
    ownerOf g a.id t = .ok a.id ∧
    (∀ reg, findProvider a.providers t = some reg → reg.deps = [] →
       ∃ i s1, resolve g (fuel + 1) [] a.id t s = .ok (i, s1)) ∧
    (∀ t2, ownsToken b t2 = false → exportersOf g b.imports t2 = [a.id] →
       ownerOf g b.id t2 = .ok a.id) := by
  have hexp : exportersOf g b.imports t = [] := by
    apply exportersOf_eq_nil
    intro r hr dm hdm
    by_cases hid : dm.id = a.id
    · have hgr : Ref.get r = a.id := by rw [← findModule_id hdm]; exact hid
      rw [hgr, hga] at hdm
      injection hdm with he
      subst he
      simp [moduleExports, hreg, hnexp]
    · exact himp r hr dm hdm hid
  have hoa : ownerOf g a.id t = .ok a.id := by simp [ownerOf, hga, hreg]
  refine ⟨?_, hoa, ?_, ?_⟩
  · simp [resolve, ownerOf, hgb, hbown, hexp]
  · intro reg hregfind hdeps
    exact resolve_nodeps g fuel a.id t s a.id a reg hoa hga hregfind hdeps
  · intro t2 hbown2 hexp2
    simp [ownerOf, hgb, hbown2, hexp2]

/-- Witness for C4: in the Users ← Reviews chain, the non-exported
provider `hiddenT` of UsersModule is unresolvable from ReviewsModule but
resolvable inside UsersModule, while the exported UsersService resolves
from ReviewsModule to UsersModule's registration. -/
theorem claim_C4_witness :
    resolve chainGraph 5 [] reviewsMId hiddenT initState =
      .error (.unresolvedDependencyError hiddenT reviewsMId) ∧
    ownerOf chainGraph usersMId hiddenT = .ok usersMId ∧
    (∃ i s1, resolve chainGraph 5 [] usersMId hiddenT initState =
      .ok (i, s1)) ∧
    ownerOf chainGraph reviewsMId usersT = .ok usersMId := by
  have h := claim_C4_export_visibility chainGraph 4 [] initState usersModC
    reviewsModC hiddenT rfl rfl (Or.inl (List.mem_cons_self _ _)) rfl rfl rfl
    ?himp
  · exact ⟨h.1, h.2.1, h.2.2.1 { token := hiddenT, deps := [] } rfl rfl,
      h.2.2.2 usersT rfl rfl⟩
  case himp =>
    intro r hr dm hdm hne
    rcases List.mem_cons.mp hr with hr | hr
    · subst hr
      have hfm : findModule chainGraph (Ref.get (Ref.direct usersMId)) =
          some usersModC := rfl
      rw [hfm] at hdm
      injection hdm with he
      subst he
      exact absurd rfl hne
    · cases hr

/-- C5: resolution precedence — a registration owned by the requesting
module itself wins; otherwise the unique imported module exporting the
token is used; and when neither the module nor its imports provide the
token, resolution fails with `UnresolvedDependencyError` naming the token
and the requesting module. -/
theorem claim_C5_resolution_order (g : Graph) (fuel : Nat)
    (stack : List (ModuleId × Token)) (m : ModuleId) (t : Token) (s : DIState)
    (d : ModuleDesc) (hd : findModule g m = some d) :
    (ownsToken d t = true → ownerOf g m t = .ok m) ∧
    (ownsToken d t = false → ∀ o, exportersOf g d.imports t = [o] →
       ownerOf g m t = .ok o) ∧
    (ownsToken d t = false → exportersOf g d.imports t = [] →
       resolve g (fuel + 1) stack m t s =
         .error (.unresolvedDependencyError t m)) := by
  refine ⟨?_, ?_, ?_⟩
  · intro hown
    simp [ownerOf, hd, hown]
  · intro hown o hexp
    simp [ownerOf, hd, hown, hexp]
  · intro hown hexp
    simp [resolve, ownerOf, hd, hown, hexp]

/-- Witness for C5: UsersModule uses its own UsersService registration;
ReviewsModule resolves UsersService through its Users import; AppModule,
whose only import exports no UsersService, gets
`UnresolvedDependencyError` naming token and requester. -/
theorem claim_C5_witness :
    ownerOf chainGraph usersMId usersT = .ok usersMId ∧
    ownerOf chainGraph reviewsMId usersT = .ok usersMId ∧
    resolve chainGraph 5 [] appMId usersT initState =
      .error (.unresolvedDependencyError usersT appMId) :=
  ⟨(claim_C5_resolution_order chainGraph 4 [] usersMId usersT initState
      usersModC rfl).1 rfl,
   (claim_C5_resolution_order chainGraph 4 [] reviewsMId usersT initState
      reviewsModC rfl).2.1 rfl usersMId rfl,
   (claim_C5_resolution_order chainGraph 4 [] appMId usersT initState
      appModC rfl).2.2 rfl rfl⟩

/-- C6: when more than one module imported by the requesting module
exports the requested token, resolution raises `ConfigurationError`
instead of picking one exporter arbitrarily. -/
theorem claim_C6_ambiguous_export (g : Graph) (fuel : Nat)
    (stack : List (ModuleId × Token)) (m : ModuleId) (t : Token) (s : DIState)
    (d : ModuleDesc) (o1 o2 : ModuleId) (os : List ModuleId)
    (hd : findModule g m = some d)
    (hown : ownsToken d t = false)
    (hexp : exportersOf g d.imports t = o1 :: o2 :: os) :
    resolve g (fuel + 1) stack m t s = .error .configurationError := by
  simp [resolve, ownerOf, hd, hown, hexp]

/-- Witness for C6: two imported modules both export token 5 to `ambC`;
resolving token 5 from `ambC` is a `ConfigurationError`. -/
theorem claim_C6_witness :
    resolve ambGraph 5 [] 12 5 initState = .error .configurationError :=
  claim_C6_ambiguous_export ambGraph 4 [] 12 5 initState ambC 10 11 []
    rfl rfl rfl

/-- C7: imports are not transitive — with B importing A and C importing
B, a token registered and exported by A but not re-exported by B (and
exported by no import of C) is unresolvable from C, failing with
`UnresolvedDependencyError` naming token and C, even though B itself
resolves the same token to A's registration. -/
theorem claim_C7_no_transitive_imports (g : Graph) (fuel : Nat)
    (stack : List (ModuleId × Token)) (s : DIState) (a b c : ModuleDesc)
    (t : Token)
    (hga : findModule g a.id = some a)
    (hgb : findModule g b.id = some b)
    (hgc : findModule g c.id = some c)
    (hreg : ownsToken a t = true)
    (haexp : listedIn a.exports t = true)
    (hBimpA : Ref.direct a.id ∈ b.imports ∨ Ref.lazy a.id ∈ b.imports)
    (hCimpB : Ref.direct b.id ∈ c.imports ∨ Ref.lazy b.id ∈ c.imports)
    (hbown : ownsToken b t = false)
    (hcown : ownsToken c t = false)
    (hcimp : ∀ r ∈ c.imports, ∀ dm, findModule g (Ref.get r) = some dm →
        dm.id ≠ b.id → moduleExports dm t = false) :
    resolve g (fuel + 1) stack c.id t s =
      .error (.unresolvedDependencyError t c.id) ∧
    (exportersOf g b.imports t = [a.id] → ownerOf g b.id t = .ok a.id) := by
  have hexp : exportersOf g c.imports t = [] := by
    apply exportersOf_eq_nil
    intro r hr dm hdm
    by_cases hid : dm.id = b.id
    · have hgr : Ref.get r = b.id := by rw [← findModule_id hdm]; exact hid
      rw [hgr, hgb] at hdm
      injection hdm with he
      subst he
      simp [moduleExports, hbown]
    · exact hcimp r hr dm hdm hid
  constructor
  · simp [resolve, ownerOf, hgc, hcown, hexp]
  · intro hbex
    simp [ownerOf, hgb, hbown, hbex]

/-- Witness for C7: AppModule imports only ReviewsModule, which exports
only ReviewsService; UsersService (exported by UsersModule to
ReviewsModule) is unresolvable from AppModule, while ReviewsModule
resolves it to UsersModule. -/
theorem claim_C7_witness :
    resolve chainGraph 7 [] appMId usersT initState =
      .error (.unresolvedDependencyError usersT appMId) ∧
    ownerOf chainGraph reviewsMId usersT = .ok usersMId := by
  have h := claim_C7_no_transitive_imports chainGraph 6 [] initState
    usersModC reviewsModC appModC usersT rfl rfl rfl rfl rfl
    (Or.inl (List.mem_cons_self _ _)) (Or.inl (List.mem_cons_self _ _))
    rfl rfl ?hcimp
  · exact ⟨h.1, h.2 rfl⟩
  case hcimp =>
    intro r hr dm hdm hne
    rcases List.mem_cons.mp hr with hr | hr
    · subst hr
      have hfm : findModule chainGraph (Ref.get (Ref.direct reviewsMId)) =
          some reviewsModC := rfl
      rw [hfm] at hdm
      injection hdm with he
      subst he
      exact absurd rfl hne
    · cases hr

/-- C8: for an existing product id, `update` overwrites exactly the
fields the DTO carries; `id`, `createdAt`, `updatedAt` and every field
the DTO omits keep their stored values, every other product of the
repository is untouched, the repository keeps its length and gains no
foreign rows, and the updated product (same id, member of the new store)
is what the call returns. -/
theorem claim_C8_update_frame (repo : ProductRepo) (id : Nat)
    (dto : UpdateProductDto) (p : Product) (h : findOne repo id = .ok p) :
    ∃ p2 repo2, update repo id dto = (.ok p2, repo2) ∧
      p2.id = id ∧
      p2.title = dto.title.getD p.title ∧
      p2.description = dto.description.getD p.description ∧
      p2.price = dto.price.getD p.price ∧
      p2.createdAt = p.createdAt ∧
      p2.updatedAt = p.updatedAt ∧
      p2 ∈ repo2 ∧
      repo2.length = repo.length ∧
      (∀ q ∈ repo, q.id ≠ id → q ∈ repo2) ∧
      (∀ q ∈ repo2, q ∈ repo ∨ q = p2) := by
  have hfind : repo.find? (fun q => q.id == id) = some p := by
    cases hf : repo.find? (fun q => q.id == id) with
    | none => simp only [findOne, hf] at h; cases h
    | some q =>
      simp only [findOne, hf] at h
      cases h
      rfl
  have hmem : p ∈ repo := List.mem_of_find?_eq_some hfind
  have hid : p.id = id := by simpa using List.find?_some hfind
  have hp2id : (assignDto p dto).id = id := hid
  have hany : repo.any (fun q => q.id == (assignDto p dto).id) = true :=
    List.any_eq_true.mpr ⟨p, hmem, by simp [hp2id, hid]⟩
  have hsave : save repo (assignDto p dto) =
      repo.map (fun q =>
        if q.id == (assignDto p dto).id then assignDto p dto else q) := by
    simp [save, hany]
  refine ⟨assignDto p dto, save repo (assignDto p dto),
    by simp [update, h], hp2id, rfl, rfl, rfl, rfl, rfl, ?_, ?_, ?_, ?_⟩
  · rw [hsave]
    have hmm := List.mem_map_of_mem
      (fun q => if q.id == (assignDto p dto).id then assignDto p dto else q)
      hmem
    simpa [hp2id, hid] using hmm
  · rw [hsave]
    exact List.length_map _ _
  · intro q hq hqid
    rw [hsave]
    have hmm := List.mem_map_of_mem
      (fun r => if r.id == (assignDto p dto).id then assignDto p dto else r)
      hq
    have hff : (q.id == (assignDto p dto).id) = false := by
      simp only [hp2id, beq_eq_false_iff_ne]
      exact hqid
    simpa [hff] using hmm
  · intro q hq
    rw [hsave] at hq
    obtain ⟨x, hx, hfx⟩ := List.mem_map.mp hq
    by_cases hxid : (x.id == (assignDto p dto).id) = true
    · right
      rw [← hfx]
      simp [hxid]
    · left
      rw [← hfx]
      simpa [hxid] using hx

/-- Witness for C8: updating product 1 of the sample repository with a
DTO carrying a new title and price. -/
theorem claim_C8_witness :
    findOne sampleRepo 1 = .ok sampleProductA ∧
    (∃ p2 repo2, update sampleRepo 1 sampleDto = (.ok p2, repo2) ∧
      p2.id = 1 ∧
      p2.title = sampleDto.title.getD sampleProductA.title ∧
      p2.description = sampleDto.description.getD sampleProductA.description ∧
      p2.price = sampleDto.price.getD sampleProductA.price ∧
      p2.createdAt = sampleProductA.createdAt ∧
      p2.updatedAt = sampleProductA.updatedAt ∧
      p2 ∈ repo2 ∧
      repo2.length = sampleRepo.length ∧
      (∀ q ∈ sampleRepo, q.id ≠ 1 → q ∈ repo2) ∧
      (∀ q ∈ repo2, q ∈ sampleRepo ∨ q = p2)) :=
  ⟨rfl, claim_C8_update_frame sampleRepo 1 sampleDto sampleProductA rfl⟩

/-- C9: `findOne` throws `NotFoundException` exactly when no product with
the given id exists, and in that case `update` and `delete` propagate the
same exception and leave the product store unchanged. -/
theorem claim_C9_notfound_atomic (repo : ProductRepo) (id : Nat)
    (dto : UpdateProductDto) :
    (findOne repo id = .error (.notFoundException "Product not found") ↔
       ∀ p ∈ repo, p.id ≠ id) ∧
    ((∀ p ∈ repo, p.id ≠ id) →
       update repo id dto =
         (.error (.notFoundException "Product not found"), repo) ∧
       deleteProduct repo id =
         (.error (.notFoundException "Product not found"), repo)) := by
  have hiff : repo.find? (fun q => q.id == id) = none ↔
      ∀ p ∈ repo, p.id ≠ id := by
    rw [List.find?_eq_none]
    constructor
    · intro hnone p hp
      simpa using hnone p hp
    · intro hall p hp
      simpa using hall p hp
  constructor
  · constructor
    · intro herr
      cases hf : repo.find? (fun q => q.id == id) with
      | none => exact hiff.mp hf
      | some q => simp only [findOne, hf] at herr; cases herr
    · intro hall
      simp [findOne, hiff.mpr hall]
  · intro hall
    have herr : findOne repo id =
        .error (.notFoundException "Product not found") := by
      simp [findOne, hiff.mpr hall]
    exact ⟨by simp [update, herr], by simp [deleteProduct, herr]⟩

/-- Witness for C9: id 99 is absent from the sample repository. -/
theorem claim_C9_witness :
    (findOne sampleRepo 99 = .error (.notFoundException "Product not found") ↔
       ∀ p ∈ sampleRepo, p.id ≠ 99) ∧
    (update sampleRepo 99 sampleDto =
       (.error (.notFoundException "Product not found"), sampleRepo) ∧
     deleteProduct sampleRepo 99 =
       (.error (.notFoundException "Product not found"), sampleRepo)) :=
  ⟨(claim_C9_notfound_atomic sampleRepo 99 sampleDto).1,
   (claim_C9_notfound_atomic sampleRepo 99 sampleDto).2 (by decide)⟩

/-- C10: when no user with the DTO's email exists, `register` saves a
user whose password field is the bcrypt hash of the submitted password
under the freshly generated salt (so, whenever that hash differs from
the plaintext, the stored password is not the plaintext); when such a
user exists, it throws `BadRequestException` and saves nothing. -/
theorem claim_C10_password_hashed (bhash : String → String → String)
    (salt : String) (repo : UserRepo) (dto : RegisterDto) :
    ((∃ u ∈ repo, u.email = dto.email) →
       register bhash salt repo dto =
         (.error (.badRequestException "User already exists"), repo)) ∧
    ((∀ u ∈ repo, u.email ≠ dto.email) →
       ∃ u2, register bhash salt repo dto = (.ok u2, repo ++ [u2]) ∧
         u2.password = bhash dto.password salt ∧
         u2.email = dto.email ∧
         u2.username = dto.username ∧
         (bhash dto.password salt ≠ dto.password →
            u2.password ≠ dto.password)) := by
  constructor
  · intro hex
    have hsome : (repo.find? (fun u => u.email == dto.email)).isSome := by
      rw [List.find?_isSome]
      obtain ⟨u, hu, he⟩ := hex
      exact ⟨u, hu, by simp [he]⟩
    cases hf : repo.find? (fun u => u.email == dto.email) with
    | none => rw [hf] at hsome; simp at hsome
    | some u => simp [register, hf]
  · intro hall
    have hnone : repo.find? (fun u => u.email == dto.email) = none := by
      rw [List.find?_eq_none]
      intro u hu
      simpa using hall u hu
    refine ⟨{ id := repo.length + 1, username := dto.username,
              email := dto.email, password := bhash dto.password salt },
            ?_, rfl, rfl, rfl, fun hne => hne⟩
    simp [register, hnone]

/-- Witness for C10: registering a duplicate email fails and saves
nothing; registering a fresh email stores the hash, not the plaintext. -/
theorem claim_C10_witness :
    register sampleHash "s1" sampleUserRepo
      { email := "a@mail.com", password := "pw", username := none } =
      (.error (.badRequestException "User already exists"), sampleUserRepo) ∧
    (∃ u2, register sampleHash "s1" sampleUserRepo sampleRegisterDto =
        (.ok u2, sampleUserRepo ++ [u2]) ∧
      u2.password = sampleHash sampleRegisterDto.password "s1" ∧
      u2.email = sampleRegisterDto.email ∧
      u2.username = sampleRegisterDto.username ∧
      (sampleHash sampleRegisterDto.password "s1" ≠
          sampleRegisterDto.password →
        u2.password ≠ sampleRegisterDto.password)) :=
  ⟨(claim_C10_password_hashed sampleHash "s1" sampleUserRepo
      { email := "a@mail.com", password := "pw", username := none }).1
      ⟨sampleUser, List.mem_cons_self _ _, rfl⟩,
   (claim_C10_password_hashed sampleHash "s1" sampleUserRepo
      sampleRegisterDto).2 (by decide)⟩

end NestJsSpec
